/-
Verification of the img2dataset per-shard download engine and its DNS
resolution/caching subsystem, as a shallow embedding in Lean 4.

Each definition below embeds one function or protocol of the Python source:
  - src/img2dataset/downloader.py  (resolve_domain, parse_dns_error,
    download_image, compute_key, Downloader.__call__, the per-item
    processing loop of Downloader.download_shard and its semaphore)
  - src/img2dataset/cache_copy.py  (GlobalCache.merge)
  - src/img2dataset/lru_cache.py   (LRUCacheRedis.get/put/flush)

External collaborators (the HTTP client, the pickle codec, the resizer,
the sample writer, the randomness of random.choice, urlparse) are modelled
as explicit oracle parameters; everything this repository computes is
embedded as executable Lean functions.
-/
import Mathlib

/-! ## GlobalCache.merge (src/img2dataset/cache_copy.py, lines 34-39)

Python dictionaries are embedded as functions `K → Option V`.
`merge` computes `keys_to_add = new_data.keys() - self.data.keys()`,
restricts `new_data` to those keys, and `update`s the held map with it. -/

namespace GlobalCache

/-- `{k: new_data[k] for k in new_data.keys() - data.keys()}`:
the restriction of `new_data` to the keys absent from `data`. -/
def keys_to_add_data {K V : Type} (data new_data : K → Option V) : K → Option V :=
  fun k =>
    match data k with
    | none => new_data k
    | some _ => none

/-- Python `dict.update`: the update operand wins wherever it is defined. -/
def dictUpdate {K V : Type} (data upd : K → Option V) : K → Option V :=
  fun k =>
    match upd k with
    | some v => some v
    | none => data k

/-- `GlobalCache.merge(new_data)`: insert only the keys absent from the
existing map (first-writer-wins). -/
def merge {K V : Type} (data new_data : K → Option V) : K → Option V :=
  dictUpdate data (keys_to_add_data data new_data)

end GlobalCache

/-! ## Per-shard DNS stats figures
(src/img2dataset/downloader.py, lines 541-550)

`dns_cache_misses` is initialized to the shard item count, `dns_cache_hits`
and `dns_cache_size` to zero; all three are overwritten from the resolver
cache only when a resolver is configured. -/

/-- Snapshot of `self.resolver.cache`: `len(cache.data)` and the
hit/miss statistics. -/
structure DnsCacheView where
  size : Nat
  hits : Nat
  misses : Nat

/-- The `(dns_cache_hits, dns_cache_misses, dns_cache_size)` triple that
`download_shard` hands to `write_stats`. `resolverCache = none` embeds
`self.resolver is None` (DNS resolution disabled). -/
def shard_dns_figures (resolverCache : Option DnsCacheView) (count : Nat) :
    Nat × Nat × Nat :=
  let dns_cache_misses := count
  let dns_cache_hits := 0
  let dns_cache_size := 0
  match resolverCache with
  | none => (dns_cache_hits, dns_cache_misses, dns_cache_size)
  | some c => (c.hits, c.misses, c.size)

/-! ## compute_key (src/img2dataset/downloader.py, lines 172-178)

`"{true_key:0{key_format}d}".format(...)` is Python's zero-padded decimal
formatting: the decimal representation of `true_key`, left-padded with
`'0'` up to width `key_format` (never truncated). The decimal
representation is embedded with an explicit fuel so that it is
structurally recursive and kernel-computable; `digitsFuel_eq_digits`
bridges it to Mathlib's `Nat.digits`. -/

/-- Little-endian base-10 digits of `n`, with explicit fuel. -/
def digitsFuel : Nat → Nat → List Nat
  | _, 0 => []
  | 0, _ + 1 => []
  | f + 1, n + 1 => (n + 1) % 10 :: digitsFuel f ((n + 1) / 10)

/-- Little-endian base-10 digits of `n`. -/
def decimalDigits (n : Nat) : List Nat := digitsFuel n n

/-- The character of one decimal digit. -/
def digitChar (d : Nat) : Char := Char.ofNat (48 + d)

/-- Python `str(n)` for a nonnegative integer. -/
def natToDecimal (n : Nat) : String :=
  if n = 0 then "0" else String.mk (((decimalDigits n).map digitChar).reverse)

/-- Left zero-padding to width `w` (Python's `0{w}d` format spec):
pads when the representation is shorter than `w`, never truncates. -/
def zeroPad (w : Nat) (s : String) : String :=
  String.mk (List.replicate (w - s.length) '0' ++ s.data)

/-- `compute_key(key, shard_id, oom_sample_per_shard, oom_shard_count)`. -/
def compute_key (key shard_id oom_sample_per_shard oom_shard_count : Nat) : String :=
  let true_key := 10 ^ oom_sample_per_shard * shard_id + key
  let key_format := oom_sample_per_shard + oom_shard_count
  zeroPad key_format (natToDecimal true_key)

/-- Decoding a decimal digit string back to a number (specification-side
inverse used to prove injectivity of `compute_key`). -/
def decodeDecimal (s : String) : Nat :=
  s.data.foldl (fun a c => 10 * a + (c.toNat - 48)) 0

/-! ## DNS resolution (src/img2dataset/downloader.py, lines 24-88)

`resolver.resolve(domain)` is an external call; it is embedded as an
oracle `attempt : String → String → Except String String` giving, for a
(domain, selected nameserver) pair, either the resolved IP or the text of
the raised exception.  `random.choice(PUBLIC_DNS_SERVERS)` repeated until
the pick is outside the blacklist is embedded by an oracle
`oracle : Nat → Nat` indexing into the non-blacklisted servers; when every
server is blacklisted the Python `while` loop never terminates, which the
embedding renders as `none`. -/

/-- The fixed pool of public resolvers. -/
def PUBLIC_DNS_SERVERS : List String :=
  ["8.8.8.8", "8.8.4.4", "1.1.1.1", "9.9.9.9", "1.0.0.1",
   "208.67.222.222", "208.67.220.220"]

/-- Whether the first list is an initial segment of the second. -/
def hasPref : List Char → List Char → Bool
  | [], _ => true
  | _ :: _, [] => false
  | a :: as, b :: bs => a == b && hasPref as bs

/-- Whether the first list occurs contiguously inside the second. -/
def hasSub (pat : List Char) : List Char → Bool
  | [] => hasPref pat []
  | b :: bs => hasPref pat (b :: bs) || hasSub pat bs

/-- Python's `pat in s` on strings. -/
def strIn (pat s : String) : Bool := hasSub pat.data s.data

/-- `parse_dns_error` (lines 54-62): collapse known resolver error texts
to canonical phrases; unrecognized errors pass through verbatim. -/
def parse_dns_error (error : String) : String :=
  if strIn "The DNS query name does not exist" error then
    "The DNS query name does not exist."
  else if strIn "The DNS response does not contain an answer to the question" error then
    "The DNS response does not contain an answer to the question."
  else if strIn "All nameservers failed to answer the query data.whicdn.com. IN A" error then
    "All nameservers failed to answer the query data.whicdn.com. IN A."
  else error

/-- What one (terminating) `resolve_domain` call produces: the returned
`(ok, ip_or_error)` pair, the sequence of selected nameservers (one per
resolution attempt, outermost first), and the final contents of the
`dns_blacklist` set object after the call. -/
structure ResolveOutcome where
  result : Bool × String
  selections : List String
  finalBlacklist : List String
deriving Repr, DecidableEq

/-- `resolve_domain(domain, resolver, dns_blacklist, num_retries)`
(lines 66-88).  Selects a nameserver outside `blacklist` (or `none` when
all are blacklisted, embedding the non-terminating selection loop), tries
`attempt`; on success returns `(True, ip)`; on failure with retries left
adds the selection to the blacklist and recurses, otherwise returns
`(False, parse_dns_error e)`. -/
def resolveDomainGo (attempt : String → String → Except String String)
    (oracle : Nat → Nat) (domain : String) :
    Nat → List String → Nat → Option ResolveOutcome
  | num_retries, blacklist, step =>
    let avail := PUBLIC_DNS_SERVERS.filter (fun s => !(blacklist.contains s))
    match avail.get? (oracle step % avail.length) with
    | none => none
    | some server =>
      match attempt domain server with
      | .ok ip => some ⟨(true, ip), [server], blacklist⟩
      | .error e =>
        match num_retries with
        | 0 => some ⟨(false, parse_dns_error e), [server], blacklist⟩
        | n + 1 =>
          match resolveDomainGo attempt oracle domain n (blacklist ++ [server]) (step + 1) with
          | none => none
          | some o => some ⟨o.result, server :: o.selections, o.finalBlacklist⟩

/-- A top-level call `resolve_domain(domain, resolver, num_retries=...)`
as issued by `download_image` (line 115): no blacklist argument is
passed.  Python evaluates the default `dns_blacklist=set()` once at
function definition, so the call starts from the process-wide default
set's *current* contents (`defaultSet`) and the call's mutations persist
in it; the pair returned is (call result, default set after the call). -/
def resolve_domain_default (attempt : String → String → Except String String)
    (oracle : Nat → Nat) (defaultSet : List String) (domain : String)
    (num_retries : Nat) : Option (Bool × String) × List String :=
  match resolveDomainGo attempt oracle domain num_retries defaultSet 0 with
  | none => (none, defaultSet)
  | some o => (some o.result, o.finalBlacklist)

/-! ## download_image (src/img2dataset/downloader.py, lines 91-146)

The HTTP client (`urllib.request.urlopen`), the URL parser
(`urlparse(url).hostname`) and the header-directive check
(`is_disallowed`) are external collaborators, embedded as oracles.  The
model keeps the source's control flow: the whole body is a `try` block
whose exceptions are converted to `(key, None, str(err))`. -/

/-- The `urllib.request.Request` built at lines 127-131: the URL the
request is opened on and the `Host` header. -/
structure HttpRequest where
  url : String
  host : String
deriving Repr, DecidableEq

/-- An HTTP response: its payload bytes and whether
`disallowed_header_directives and is_disallowed(r.headers, ...)` holds
for its headers (the header-directive parsing itself is an external
concern here). -/
structure HttpResponse where
  disallowed : Bool
  body : List Nat
deriving Repr, DecidableEq

/-- Lines 127-142: build the request on `original_url` with the `Host`
header, open it, check the robots directives, read the payload. -/
def openAndRead (http : HttpRequest → Except String HttpResponse)
    (key : String) (req : HttpRequest) :
    String × Option (List Nat) × Option String :=
  match http req with
  | .error err => (key, none, some err)
  | .ok r =>
    if r.disallowed then
      (key, none, some "Use of image disallowed by X-Robots-Tag directive")
    else
      (key, some r.body, none)

/-- The `str(err)` of the `NameError` raised at line 130 when the local
variable `domain` was never assigned (resolver disabled); Python's exact
message quotes the variable name. -/
def nameErrorDomain : String := "NameError: name domain is not defined"

/-- `download_image(row, ...)`: returns `(key, img_stream, error)`.
`hostnameOf` embeds `urlparse(url).hostname`, `resolve` the outcome of
the `resolve_domain` call for this invocation, `http` the HTTP client,
`resolverPresent` whether a resolver was passed.  When the resolver is
absent the branch at lines 109-124 is skipped, so `domain` is unbound
and the header construction at line 130 raises `NameError`, caught at
line 143. -/
def download_image (hostnameOf : String → String)
    (resolve : String → Bool × String)
    (http : HttpRequest → Except String HttpResponse)
    (resolverPresent : Bool) (key url : String) :
    String × Option (List Nat) × Option String :=
  let original_url := url
  if resolverPresent then
    let domain := hostnameOf url
    let res := resolve domain
    if res.1 = false then
      (key, none, some ("DNS resolution failed: " ++ res.2 ++ " for " ++ domain))
    else
      let ip := res.2
      -- line 124: the hostname-to-IP rewrite; the rewritten URL is
      -- computed but the request below is built on original_url
      let _rewritten := if ip ≠ "" then url.replace domain ip else url
      openAndRead http key { url := original_url, host := domain }
  else
    (key, none, some nameErrorDomain)

/-! ## Per-item processing inside Downloader.download_shard
(src/img2dataset/downloader.py, lines 381-534)

The loop body for one completed download.  Collaborator behaviour for the
item is summarized in `ItemBehavior`: the fetch result's error message,
whether the verification hash matches, what `self.resizer` does
(raising, reporting an error, or succeeding), and whether
`sample_writer.write` raises.  Every branch of the source either writes
the outcome and releases the semaphore (lines 432, 456, 487, 534) or is
caught by the `except` at line 531 and then releases at line 534; the
embedding threads the semaphore value explicitly. -/

/-- One item's collaborator behaviour during the processing loop. -/
structure ItemBehavior where
  /-- `error_message` returned by `download_image_with_retry`. -/
  errorMessage : Option String
  /-- whether the recomputed digest equals the reference column. -/
  hashMatches : Bool
  /-- `self.resizer(...)`: raises (`error e`), reports an error message
  (`ok (some msg)`), or succeeds (`ok none`). -/
  resize : Except String (Option String)
  /-- whether `sample_writer.write` raises on this item. -/
  writerThrows : Bool

/-- The terminal classification of one item. -/
inductive ItemStatus where
  /-- wrote a `failed_to_download` record. -/
  | failedToDownload
  /-- wrote a `failed_to_resize` record. -/
  | failedToResize
  /-- wrote a `success` record. -/
  | success
  /-- an unexpected exception was caught at line 531; the item is
  dropped (no record written). -/
  | dropped
deriving Repr, DecidableEq

/-- The loop body at lines 393-534 for one item, threading the semaphore
value: returns the semaphore after the item and the item's terminal
status.  `hashChecked` embeds `hash_indice is not None`. -/
def processSample (hashChecked : Bool) (b : ItemBehavior) (sem : Nat) :
    Nat × ItemStatus :=
  match b.errorMessage with
  | some _ =>
    -- lines 419-433: write the failure record, release, continue
    if b.writerThrows then (sem + 1, .dropped) else (sem + 1, .failedToDownload)
  | none =>
    if hashChecked && !b.hashMatches then
      -- lines 435-457: hash mismatch record, release, continue
      if b.writerThrows then (sem + 1, .dropped) else (sem + 1, .failedToDownload)
    else
      match b.resize with
      | .error _ =>
        -- resizer raised: caught at line 531, released at line 534
        (sem + 1, .dropped)
      | .ok (some _) =>
        -- lines 471-488: failed_to_resize record, release, continue
        if b.writerThrows then (sem + 1, .dropped) else (sem + 1, .failedToResize)
      | .ok none =>
        -- lines 489-530: success record written, release at line 534
        if b.writerThrows then (sem + 1, .dropped) else (sem + 1, .success)

/-- The whole consumption loop: processes every completed item in turn,
threading the semaphore, collecting each item's terminal status. -/
def download_shard_loop (hashChecked : Bool) :
    List ItemBehavior → Nat → Nat × List ItemStatus
  | [], sem => (sem, [])
  | b :: rest, sem =>
    let r := processSample hashChecked b sem
    let rr := download_shard_loop hashChecked rest r.1
    (rr.1, r.2 :: rr.2)

/-- `Downloader.__call__` (lines 286-296): `download_shard`'s outcome is
either normal completion or a raised exception; the call catches the
exception and reports `(False, row)`, otherwise `(True, row)`. -/
def downloader_call (shardOutcome : Except String Unit) (row : Nat × String) :
    Bool × (Nat × String) :=
  match shardOutcome with
  | .ok _ => (true, row)
  | .error _ => (false, row)

/-! ## The backpressure semaphore as a transition system
(src/img2dataset/downloader.py, lines 357-366 and the releases above)

`Semaphore(thread_count * 2)`; `data_generator` acquires one unit before
yielding each item; each item's processing releases exactly one unit
(`processSample_releases_one` below).  Worker completions interleave
arbitrarily, so the protocol is embedded as a small-step transition
system over the counts involved. -/

/-- Shard-processing state: items not yet yielded by the producer, items
yielded but not yet fully finished, and the semaphore value. -/
structure ShardState where
  remaining : Nat
  inflight : Nat
  sem : Nat
deriving Repr, DecidableEq

/-- Initial state for a shard of `n` items with `thread_count = t`. -/
def shardInit (t n : Nat) : ShardState := ⟨n, 0, 2 * t⟩

/-- One scheduler step: the producer acquires a unit and yields an item,
or some worker fully finishes an item (any exit path) and releases its
unit. -/
inductive ShardStep : ShardState → ShardState → Prop where
  | yieldItem (r i s : Nat) : ShardStep ⟨r + 1, i, s + 1⟩ ⟨r, i + 1, s⟩
  | finishItem (r i s : Nat) : ShardStep ⟨r, i + 1, s⟩ ⟨r, i, s + 1⟩

/-- States reachable under some interleaving of producer yields and
worker completions. -/
inductive ShardReachable (t n : Nat) : ShardState → Prop where
  | init : ShardReachable t n (shardInit t n)
  | step {s u : ShardState} : ShardReachable t n s → ShardStep s u →
      ShardReachable t n u

/-! ## LRUCacheRedis (src/img2dataset/lru_cache.py)

The external Redis store is embedded as explicit state: the key-value
store, the `"lru_list"` list, and the in-process hit/miss statistics of
`dns.resolver.CacheBase`.  `pickle.dumps`/`pickle.loads` are an opaque
codec, passed as oracles `dumps`/`loads`. -/

/-- The observable state behind one `LRUCacheRedis`. -/
structure RedisState (B : Type) where
  store : String → Option B
  lru : List String
  hits : Nat
  misses : Nat

namespace LRUCacheRedis

/-- `_generate_cache_key` (lines 35-43): `f"{name!s}:{int(rdtype)}:{int(rdclass)}"`
for the key tuple `(name, rdtype, rdclass)`. -/
def generate_cache_key (k : String × Nat × Nat) : String :=
  k.1 ++ ":" ++ toString k.2.1 ++ ":" ++ toString k.2.2

/-- `get` (lines 45-73): on absence increment misses and return `None`;
on presence deserialize, move the key to the front of `"lru_list"`
(`lrem` all occurrences then `lpush`), increment hits, return the
answer. -/
def get {B V : Type} (loads : B → V) (s : RedisState B)
    (k : String × Nat × Nat) : Option V × RedisState B :=
  let cache_key := generate_cache_key k
  match s.store cache_key with
  | none => (none, { s with misses := s.misses + 1 })
  | some b =>
    (some (loads b),
      { s with
        lru := cache_key :: s.lru.filter (fun x => x != cache_key)
        hits := s.hits + 1 })

/-- `put` (lines 75-92): serialize, `set` the key, `lrem` any existing
reference then `lpush` to the front. -/
def put {B V : Type} (dumps : V → B) (s : RedisState B)
    (k : String × Nat × Nat) (v : V) : RedisState B :=
  let cache_key := generate_cache_key k
  { s with
    store := fun x => if x = cache_key then some (dumps v) else s.store x
    lru := cache_key :: s.lru.filter (fun x => x != cache_key) }

/-- `flush` (lines 94-106): with a key, delete it from the store and
from `"lru_list"`; with no key, `flushdb` clears the whole database
(key store and `"lru_list"` alike). -/
def flush {B : Type} (s : RedisState B) (k : Option (String × Nat × Nat)) :
    RedisState B :=
  match k with
  | some k =>
    let cache_key := generate_cache_key k
    { s with
      store := fun x => if x = cache_key then none else s.store x
      lru := s.lru.filter (fun x => x != cache_key) }
  | none => { s with store := fun _ => none, lru := [] }

end LRUCacheRedis

/-! ## Helper lemmas -/

/-- Every branch of the per-item loop body performs exactly one
`semaphore.release()`: at line 432, 456 or 487 before `continue`, or at
line 534 (also reached from the `except` at line 531). -/
theorem processSample_sem (hashChecked : Bool) (b : ItemBehavior) (sem : Nat) :
    (processSample hashChecked b sem).1 = sem + 1 := by
  rcases b with ⟨em, hm, rz, wt⟩
  rcases em with _ | e <;> rcases rz with e | o <;>
    (try rcases o with _ | m) <;> cases wt <;> cases hm <;> cases hashChecked <;>
    simp [processSample]

/-! ## Claim theorems -/

/-- C5: `GlobalCache.merge(new_data)` leaves the value bound to every
already-present key unchanged, the resulting key set is the union of the
old and new key sets, and keys absent before the merge take their value
from `new_data` (first-writer-wins). -/
theorem merge_first_writer_wins {K V : Type} (data new_data : K → Option V) :
    (∀ k v, data k = some v → GlobalCache.merge data new_data k = some v) ∧
    (∀ k, (GlobalCache.merge data new_data k).isSome
        = ((data k).isSome || (new_data k).isSome)) ∧
    (∀ k, data k = none → GlobalCache.merge data new_data k = new_data k) := by
  refine ⟨?_, ?_, ?_⟩ <;> intro k
  · intro v h
    simp [GlobalCache.merge, GlobalCache.dictUpdate, GlobalCache.keys_to_add_data, h]
  · rcases hd : data k with _ | v <;> rcases hn : new_data k with _ | w <;>
      simp [GlobalCache.merge, GlobalCache.dictUpdate, GlobalCache.keys_to_add_data,
        hd, hn]
  · intro h
    rcases hn : new_data k with _ | w <;>
      simp [GlobalCache.merge, GlobalCache.dictUpdate, GlobalCache.keys_to_add_data,
        h, hn]

/-- Witness for C5 at concrete maps: key 0 is already bound to 10 and
keeps that value across a merge that also offers 20 for key 0. -/
theorem merge_first_writer_wins_witness :
    GlobalCache.merge (fun k : Nat => if k = 0 then some 10 else none)
      (fun k : Nat => if k = 0 then some 20 else if k = 1 then some 30 else none)
      0 = some 10 :=
  (merge_first_writer_wins (fun k : Nat => if k = 0 then some 10 else none)
    (fun k : Nat => if k = 0 then some 20 else if k = 1 then some 30 else none)).1
    0 10 rfl

/-- C8 counterexample: with DNS resolution disabled and a shard of 3
items, the miss figure handed to the stats collaborator is 3, not zero
(nor absent) — `download_shard` initializes `dns_cache_misses = count`. -/
theorem shard_dns_figures_disabled_counterexample :
    (shard_dns_figures none 3).2.1 = 3 ∧ (shard_dns_figures none 3).2.1 ≠ 0 := by
  decide

/-- C8 (amended): with DNS resolution disabled the per-shard stats
report hands zero hit and size figures, and a miss figure equal to the
shard's item count. -/
theorem shard_dns_figures_disabled (count : Nat) :
    shard_dns_figures none count = (0, count, 0) := rfl

/-- C7: no exception escapes a per-shard invocation: `__call__` maps a
raised shard-level exception to `(False, row)` and normal completion to
`(True, row)`; inside the shard, every item is processed (an unexpected
per-item exception drops only that item) and each item releases exactly
one backpressure unit, so the loop over `n` items nets `+n` on the
semaphore and yields one terminal status per item. -/
theorem shard_error_containment :
    (∀ (e : String) (row : Nat × String), downloader_call (.error e) row = (false, row)) ∧
    (∀ row : Nat × String, downloader_call (.ok ()) row = (true, row)) ∧
    (∀ (hashChecked : Bool) (items : List ItemBehavior) (sem : Nat),
      (download_shard_loop hashChecked items sem).1 = sem + items.length ∧
      (download_shard_loop hashChecked items sem).2.length = items.length) := by
  refine ⟨fun e row => rfl, fun row => rfl, ?_⟩
  intro hashChecked items
  induction items with
  | nil => intro sem; simp [download_shard_loop]
  | cons b rest ih =>
    intro sem
    obtain ⟨ha, hb⟩ := ih (sem + 1)
    have h1 := processSample_sem hashChecked b sem
    refine ⟨?_, ?_⟩
    · simp only [download_shard_loop, h1, ha, List.length_cons]
      omega
    · simp only [download_shard_loop, h1, List.length_cons, hb]

/-- C9: with the DNS subsystem disabled (`resolver=None`), the resolver
branch of `download_image` never assigns the local `domain`, the header
construction at line 130 faults, and the `except` turns every call —
for every URL and every HTTP-client behaviour — into an absent payload
plus a non-absent error message; no item can succeed. -/
theorem download_image_no_resolver_always_errors
    (hostnameOf : String → String) (resolve : String → Bool × String)
    (http : HttpRequest → Except String HttpResponse) (key url : String) :
    download_image hostnameOf resolve http false key url
      = (key, none, some nameErrorDomain) := rfl

/-- C10: when resolution succeeds, the request is built from
`original_url` and the parsed hostname only; the resolved IP is used
solely in the dead hostname-rewrite, so two executions whose successful
resolutions return different IPs behave identically against every HTTP
client (`http` is universally quantified: identical outcomes for every
client means the issued requests are identical). -/
theorem download_image_ip_irrelevant
    (hostnameOf : String → String) (resolve1 resolve2 : String → Bool × String)
    (http : HttpRequest → Except String HttpResponse) (key url : String)
    (h1 : (resolve1 (hostnameOf url)).1 = true)
    (h2 : (resolve2 (hostnameOf url)).1 = true) :
    download_image hostnameOf resolve1 http true key url
      = download_image hostnameOf resolve2 http true key url := by
  simp [download_image, h1, h2]

/-- Witness for C10: two resolutions of the same row returning the
distinct IPs 1.2.3.4 and 5.6.7.8 produce equal outcomes. -/
theorem download_image_ip_irrelevant_witness :
    download_image (fun _ => "h.com") (fun _ => (true, "1.2.3.4"))
        (fun _ => Except.ok ⟨false, [7]⟩) true "k" "http://h.com/a"
      = download_image (fun _ => "h.com") (fun _ => (true, "5.6.7.8"))
        (fun _ => Except.ok ⟨false, [7]⟩) true "k" "http://h.com/a" :=
  download_image_ip_irrelevant (fun _ => "h.com") (fun _ => (true, "1.2.3.4"))
    (fun _ => (true, "5.6.7.8")) (fun _ => Except.ok ⟨false, [7]⟩)
    "k" "http://h.com/a" rfl rfl

/-- C2 (evaluation at the failing input): `dns_blacklist=set()` is
evaluated once at function definition, so a first top-level call
`resolve_domain("a.com", resolver, num_retries=1)` whose first attempt
fails on 8.8.8.8 leaves the process-wide default set holding 8.8.8.8;
a later top-level call for a different domain therefore starts from a
non-empty blacklist and can never select 8.8.8.8 again — contradicting
the claim that every top-level call starts from a fresh empty blacklist. -/
theorem resolve_domain_blacklist_persists :
    (resolve_domain_default (fun _ _ => Except.error "timeout") (fun _ => 0) []
        "a.com" 1).2 = ["8.8.8.8"] ∧
    ["8.8.8.8"] ≠ ([] : List String) ∧
    resolveDomainGo (fun _ _ => Except.error "timeout") (fun _ => 0) "b.com" 0
        ["8.8.8.8"] 0
      = some ⟨(false, "timeout"), ["8.8.4.4"], ["8.8.8.8"]⟩ := by
  refine ⟨by decide, by decide, by decide⟩

/-- C1: along every interleaving of producer yields and worker
completions, the number of yielded-but-unfinished items never exceeds
`2 * thread_count`, and every per-item exit path (outcome written, or
dropped after an unexpected error) releases exactly one backpressure
unit. -/
theorem backpressure_bound (t n : Nat) (s : ShardState)
    (h : ShardReachable t n s) :
    s.inflight ≤ 2 * t ∧
    ∀ (hashChecked : Bool) (b : ItemBehavior) (sem : Nat),
      (processSample hashChecked b sem).1 = sem + 1 := by
  refine ⟨?_, fun hashChecked b sem => processSample_sem hashChecked b sem⟩
  have inv : s.inflight + s.sem = 2 * t := by
    induction h with
    | init => simp [shardInit]
    | step hr hs ih =>
      cases hs with
      | yieldItem r i sv => simp_all [ShardState.inflight, ShardState.sem]; omega
      | finishItem r i sv => simp_all [ShardState.inflight, ShardState.sem]; omega
  omega

/-- Witness for C1: after one producer yield from the initial state of a
2-thread, 3-item shard, one item is in flight, within the bound 4. -/
theorem backpressure_bound_witness :
    (ShardState.mk 2 1 3).inflight ≤ 2 * 2 :=
  (backpressure_bound 2 3 ⟨2, 1, 3⟩
    (ShardReachable.step ShardReachable.init (ShardStep.yieldItem 2 0 3))).1

/-- C6: on the Redis-backed LRU cache, `get` after `put` of the same key
round-trips the value through the pickle codec; `get` on an absent key
returns `none` and bumps the miss counter; `get` on a present key bumps
the hit counter and moves the key to the front of the recency list
(leaving the other entries as they were); `flush(key)` removes the key
from both the store and the recency list; `flush()` empties both. -/
theorem lru_cache_redis_spec {B V : Type} (dumps : V → B) (loads : B → V)
    (s : RedisState B) (k : String × Nat × Nat) (v : V) :
    (loads (dumps v) = v →
      (LRUCacheRedis.get loads (LRUCacheRedis.put dumps s k v) k).1 = some v) ∧
    (s.store (LRUCacheRedis.generate_cache_key k) = none →
      (LRUCacheRedis.get loads s k).1 = none ∧
      ((LRUCacheRedis.get loads s k).2).misses = s.misses + 1) ∧
    (∀ b, s.store (LRUCacheRedis.generate_cache_key k) = some b →
      (LRUCacheRedis.get loads s k).1 = some (loads b) ∧
      ((LRUCacheRedis.get loads s k).2).hits = s.hits + 1 ∧
      ((LRUCacheRedis.get loads s k).2).lru.head?
          = some (LRUCacheRedis.generate_cache_key k) ∧
      ((LRUCacheRedis.get loads s k).2).lru.filter
          (fun x => x != LRUCacheRedis.generate_cache_key k)
        = s.lru.filter (fun x => x != LRUCacheRedis.generate_cache_key k)) ∧
    ((LRUCacheRedis.flush s (some k)).store (LRUCacheRedis.generate_cache_key k)
        = none ∧
      LRUCacheRedis.generate_cache_key k ∉ (LRUCacheRedis.flush s (some k)).lru) ∧
    ((∀ ck, (LRUCacheRedis.flush s none).store ck = none) ∧
      (LRUCacheRedis.flush s none).lru = []) := by
  refine ⟨?_, ?_, ?_, ⟨?_, ?_⟩, fun ck => rfl, rfl⟩
  · intro hrt
    simp [LRUCacheRedis.get, LRUCacheRedis.put, hrt]
  · intro habs
    simp [LRUCacheRedis.get, habs]
  · intro b hpres
    refine ⟨?_, ?_, ?_, ?_⟩ <;>
      simp [LRUCacheRedis.get, hpres, List.filter_filter]
  · simp [LRUCacheRedis.flush]
  · simp [LRUCacheRedis.flush, List.mem_filter]

/-- Witness for C6 at a concrete cache state and codec: putting 5 under
`("d.com", 1, 1)` into the empty store and getting it back yields 5. -/
theorem lru_cache_redis_spec_witness :
    (LRUCacheRedis.get (fun b : Nat => b - 1)
        (LRUCacheRedis.put (fun v : Nat => v + 1)
          ⟨fun _ => none, [], 0, 0⟩ ("d.com", 1, 1) 5)
        ("d.com", 1, 1)).1 = some 5 :=
  (lru_cache_redis_spec (fun v : Nat => v + 1) (fun b : Nat => b - 1)
    ⟨fun _ => none, [], 0, 0⟩ ("d.com", 1, 1) 5).1 rfl

/-! ## Lemmas for compute_key -/

/-- With enough fuel, `digitsFuel` computes `Nat.digits 10`. -/
theorem digitsFuel_eq_digits : ∀ f n, n ≤ f → digitsFuel f n = Nat.digits 10 n := by
  intro f
  induction f with
  | zero =>
    intro n hn
    have h0 : n = 0 := Nat.le_zero.mp hn
    subst h0
    simp [digitsFuel]
  | succ f ih =>
    intro n hn
    match n with
    | 0 => simp [digitsFuel]
    | m + 1 =>
      rw [digitsFuel, Nat.digits_def' (by norm_num : (1 : Nat) < 10) (Nat.succ_pos m)]
      have hlt : (m + 1) / 10 < m + 1 := Nat.div_lt_self (Nat.succ_pos m) (by norm_num)
      exact congrArg _ (ih _ (by omega))

/-- `decimalDigits` agrees with Mathlib's `Nat.digits 10`. -/
theorem decimalDigits_eq_digits (n : Nat) : decimalDigits n = Nat.digits 10 n :=
  digitsFuel_eq_digits n n le_rfl

/-- Python's decimal representation of `n < 10^w` fits within `w`
characters (for positive `w`). -/
theorem natToDecimal_length_le {n w : Nat} (hw : 0 < w) (hn : n < 10 ^ w) :
    (natToDecimal n).length ≤ w := by
  unfold natToDecimal
  split
  · simpa [String.length] using hw
  · rename_i hne
    have hlen : (Nat.digits 10 n).length = Nat.log 10 n + 1 :=
      Nat.digits_len 10 n (by norm_num) hne
    have hlog : Nat.log 10 n < w := (Nat.lt_pow_iff_log_lt (by norm_num) hne).mp hn
    simp [String.length, decimalDigits_eq_digits, hlen]
    omega

/-- Decimal digit characters are digits. -/
theorem digitChar_isDigit {d : Nat} (hd : d < 10) : (digitChar d).isDigit = true := by
  interval_cases d <;> decide

/-- The numeric value of a decimal digit character. -/
theorem digitChar_toNat {d : Nat} (hd : d < 10) : (digitChar d).toNat = 48 + d := by
  interval_cases d <;> decide

/-- Leading `'0'` characters do not change the decoded value. -/
theorem decode_replicate_zero :
    ∀ (m : Nat) (l : List Char),
      List.foldl (fun a c => 10 * a + (c.toNat - 48)) 0 (List.replicate m '0' ++ l)
        = List.foldl (fun a c => 10 * a + (c.toNat - 48)) 0 l := by
  intro m
  induction m with
  | zero => intro l; simp
  | succ m ih =>
    intro l
    simpa [List.replicate_succ] using ih l

/-- Decoding the characters of digits is decoding the digits. -/
theorem decode_map_digitChar :
    ∀ (L : List Nat), (∀ d ∈ L, d < 10) → ∀ a : Nat,
      List.foldl (fun x c => 10 * x + (c.toNat - 48)) a (L.map digitChar)
        = List.foldl (fun x d => 10 * x + d) a L := by
  intro L
  induction L with
  | nil => intro _ a; simp
  | cons d L ih =>
    intro hl a
    have hd : d < 10 := hl d (List.mem_cons_self d L)
    have := digitChar_toNat hd
    simp only [List.map_cons, List.foldl_cons, this]
    rw [show 48 + d - 48 = d by omega]
    exact ih (fun x hx => hl x (List.mem_cons_of_mem d hx)) _

/-- Big-endian decoding of a little-endian digit list. -/
theorem decode_reverse_ofDigits :
    ∀ (L : List Nat) (a : Nat),
      List.foldl (fun x d => 10 * x + d) a L.reverse
        = a * 10 ^ L.length + Nat.ofDigits 10 L := by
  intro L
  induction L with
  | nil => simp
  | cons d L ih =>
    intro a
    rw [List.reverse_cons, List.foldl_append]
    simp only [List.foldl_cons, List.foldl_nil]
    rw [ih, Nat.ofDigits_cons, List.length_cons]
    ring

/-- The decoded value of `compute_key` is `true_key`. -/
theorem decode_compute_key (key shard_id d1 d2 : Nat) :
    decodeDecimal (compute_key key shard_id d1 d2) = 10 ^ d1 * shard_id + key := by
  unfold decodeDecimal compute_key zeroPad
  show List.foldl _ 0 (List.replicate _ '0' ++ (natToDecimal _).data) = _
  rw [decode_replicate_zero]
  generalize 10 ^ d1 * shard_id + key = n
  unfold natToDecimal
  split
  · rename_i h0
    subst h0
    decide
  · rename_i hne
    show List.foldl _ 0 (((decimalDigits n).map digitChar).reverse) = n
    rw [← List.map_reverse]
    rw [decode_map_digitChar _ (fun d hd => by
      have : d ∈ Nat.digits 10 n := by
        rw [← decimalDigits_eq_digits]
        exact List.mem_reverse.mp hd
      exact Nat.digits_lt_base (by norm_num) this)]
    rw [decode_reverse_ofDigits, decimalDigits_eq_digits, Nat.ofDigits_digits]
    simp

/-- C4 counterexample: `(ordinal, shardId, digitsPerShard, digitsShardCount)
= (0, 0, 0, 0)` lies in the claimed domain (`0 < 10^0`), yet the output
is `"0"`, of length 1, not `digitsPerShard + digitsShardCount = 0` —
Python's zero-padded formatting never truncates. -/
theorem compute_key_width_zero_counterexample :
    (0 : Nat) < 10 ^ 0 ∧ (compute_key 0 0 0 0).length ≠ 0 + 0 ∧
    compute_key 0 0 0 0 = "0" := by
  decide

/-- C4 (amended: additionally requires a positive total width
`digitsPerShard + digitsShardCount`, which excludes only the degenerate
point `(0,0,0,0)`): for `ordinal < 10^digitsPerShard` and
`shardId < 10^digitsShardCount`, `compute_key` returns the decimal
representation of `shardId * 10^digitsPerShard + ordinal` zero-padded to
exactly `digitsPerShard + digitsShardCount` characters: the output has
exactly that length, consists only of digits, and the map
`(ordinal, shardId) ↦ output` is injective over the domain. -/
theorem compute_key_spec
    (key shard_id key2 shard_id2 oom_sample_per_shard oom_shard_count : Nat)
    (hk : key < 10 ^ oom_sample_per_shard)
    (hs : shard_id < 10 ^ oom_shard_count)
    (hw : 0 < oom_sample_per_shard + oom_shard_count) :
    (compute_key key shard_id oom_sample_per_shard oom_shard_count).length
        = oom_sample_per_shard + oom_shard_count ∧
    decodeDecimal (compute_key key shard_id oom_sample_per_shard oom_shard_count)
        = 10 ^ oom_sample_per_shard * shard_id + key ∧
    (∀ c ∈ (compute_key key shard_id oom_sample_per_shard oom_shard_count).data,
      c.isDigit = true) ∧
    (key2 < 10 ^ oom_sample_per_shard → shard_id2 < 10 ^ oom_shard_count →
      compute_key key shard_id oom_sample_per_shard oom_shard_count
        = compute_key key2 shard_id2 oom_sample_per_shard oom_shard_count →
      key = key2 ∧ shard_id = shard_id2) := by
  have htk : 10 ^ oom_sample_per_shard * shard_id + key
      < 10 ^ (oom_sample_per_shard + oom_shard_count) := by
    have h1 : 10 ^ oom_sample_per_shard * shard_id + key
        < 10 ^ oom_sample_per_shard * (shard_id + 1) := by
      calc 10 ^ oom_sample_per_shard * shard_id + key
          < 10 ^ oom_sample_per_shard * shard_id + 10 ^ oom_sample_per_shard := by
            omega
        _ = 10 ^ oom_sample_per_shard * (shard_id + 1) := by ring
    have h2 : 10 ^ oom_sample_per_shard * (shard_id + 1)
        ≤ 10 ^ oom_sample_per_shard * 10 ^ oom_shard_count :=
      Nat.mul_le_mul_left _ (by omega)
    rw [pow_add]
    omega
  refine ⟨?_, decode_compute_key _ _ _ _, ?_, ?_⟩
  · have hle := natToDecimal_length_le hw htk
    simp only [compute_key, zeroPad, String.length, List.length_append,
      List.length_replicate]
    simp only [String.length] at hle
    omega
  · intro c hc
    simp only [compute_key, zeroPad] at hc
    rcases List.mem_append.mp hc with h | h
    · rw [List.eq_of_mem_replicate h]
      decide
    · revert h
      unfold natToDecimal
      split
      · intro h
        simp only [show ("0" : String).data = ['0'] from rfl,
          List.mem_singleton] at h
        subst h
        decide
      · intro h
        have h := List.mem_reverse.mp h
        rcases List.mem_map.mp h with ⟨d, hd, rfl⟩
        have hd10 : d ∈ Nat.digits 10 (10 ^ oom_sample_per_shard * shard_id + key) := by
          rw [← decimalDigits_eq_digits]
          exact hd
        exact digitChar_isDigit (Nat.digits_lt_base (by norm_num) hd10)
  · intro h2k h2s heq
    have hdec := congrArg decodeDecimal heq
    rw [decode_compute_key, decode_compute_key] at hdec
    have hp : 0 < 10 ^ oom_sample_per_shard := Nat.pos_pow_of_pos _ (by norm_num)
    constructor
    · have := congrArg (fun x => x % 10 ^ oom_sample_per_shard) hdec
      simpa [Nat.mul_add_mod, Nat.mod_eq_of_lt hk, Nat.mod_eq_of_lt h2k] using this
    · have := congrArg (fun x => x / 10 ^ oom_sample_per_shard) hdec
      simpa [Nat.mul_add_div hp, Nat.div_eq_of_lt hk, Nat.div_eq_of_lt h2k]
        using this

/-- Witness for C4 at `(ordinal, shardId, digits) = (5, 3, 2, 1)`:
the key has length 3 and decodes to `305`. -/
theorem compute_key_spec_witness :
    (compute_key 5 3 2 1).length = 2 + 1 ∧
    decodeDecimal (compute_key 5 3 2 1) = 10 ^ 2 * 3 + 5 :=
  ⟨(compute_key_spec 5 3 5 3 2 1 (by norm_num) (by norm_num) (by norm_num)).1,
   (compute_key_spec 5 3 5 3 2 1 (by norm_num) (by norm_num) (by norm_num)).2.1⟩

/-! ## Lemmas for resolve_domain -/

/-- As long as fewer distinct servers are blacklisted than the pool
holds, a non-blacklisted server remains available. -/
theorem filter_not_blacklisted_length_pos {bl : List String}
    (hnd : bl.Nodup)
    (hlen : bl.length < PUBLIC_DNS_SERVERS.length) :
    (PUBLIC_DNS_SERVERS.filter (fun s => !(bl.contains s))).length ≠ 0 := by
  intro h0
  have hempty : PUBLIC_DNS_SERVERS.filter (fun s => !(bl.contains s)) = [] :=
    List.length_eq_zero.mp h0
  have hall : ∀ x ∈ PUBLIC_DNS_SERVERS, x ∈ bl := by
    intro x hx
    by_contra hxb
    have hmem : x ∈ PUBLIC_DNS_SERVERS.filter (fun s => !(bl.contains s)) :=
      List.mem_filter_of_mem hx (by simp [hxb])
    rw [hempty] at hmem
    exact absurd hmem (List.not_mem_nil x)
  have hsubF : PUBLIC_DNS_SERVERS.toFinset ⊆ bl.toFinset := by
    intro x hx
    rw [List.mem_toFinset] at hx ⊢
    exact hall x hx
  have hcard := Finset.card_le_card hsubF
  rw [List.toFinset_card_of_nodup hnd] at hcard
  have hserv : PUBLIC_DNS_SERVERS.toFinset.card = PUBLIC_DNS_SERVERS.length :=
    List.toFinset_card_of_nodup (by decide)
  omega

/-- General induction form of the always-failing `resolve_domain`
analysis, over an arbitrary starting blacklist of distinct pool
servers. -/
theorem resolveDomainGo_always_fail
    (attempt : String → String → Except String String) (oracle : Nat → Nat)
    (domain : String)
    (hfail : ∀ srv, ∃ e, attempt domain srv = Except.error e) :
    ∀ (N : Nat) (bl : List String) (step : Nat),
      bl.Nodup → (∀ x ∈ bl, x ∈ PUBLIC_DNS_SERVERS) →
      bl.length + N < PUBLIC_DNS_SERVERS.length →
      ∃ o, resolveDomainGo attempt oracle domain N bl step = some o ∧
        o.selections.length = N + 1 ∧
        (bl ++ o.selections).Nodup ∧
        (∀ x ∈ o.selections, x ∈ PUBLIC_DNS_SERVERS) ∧
        o.finalBlacklist = bl ++ o.selections.dropLast ∧
        o.result.1 = false ∧
        (∃ e, o.result.2 = parse_dns_error e) := by
  intro N
  induction N with
  | zero =>
    intro bl step hnd hsub hlen
    set avail := PUBLIC_DNS_SERVERS.filter (fun s => !(bl.contains s)) with havail
    have hpos : 0 < avail.length :=
      Nat.pos_of_ne_zero (filter_not_blacklisted_length_pos hnd (by omega))
    have hidx : oracle step % avail.length < avail.length := Nat.mod_lt _ hpos
    set server := avail.get ⟨oracle step % avail.length, hidx⟩ with hserver
    have hget : avail.get? (oracle step % avail.length) = some server :=
      List.get?_eq_get hidx
    have hmemAvail : server ∈ avail := List.get_mem avail _ hidx
    have hmem : server ∈ PUBLIC_DNS_SERVERS := (List.mem_filter.mp hmemAvail).1
    have hnotbl : server ∉ bl := by
      have := (List.mem_filter.mp hmemAvail).2
      simpa using this
    obtain ⟨e, he⟩ := hfail server
    refine ⟨⟨(false, parse_dns_error e), [server], bl⟩, ?_, ?_, ?_, ?_, ?_, rfl,
      ⟨e, rfl⟩⟩
    · rw [resolveDomainGo]
      rw [← havail]
      simp only [hget, he]
    · simp
    · simp [List.nodup_append, hnd, hnotbl]
    · simp [hmem]
    · simp
  | succ n ih =>
    intro bl step hnd hsub hlen
    set avail := PUBLIC_DNS_SERVERS.filter (fun s => !(bl.contains s)) with havail
    have hpos : 0 < avail.length :=
      Nat.pos_of_ne_zero (filter_not_blacklisted_length_pos hnd (by omega))
    have hidx : oracle step % avail.length < avail.length := Nat.mod_lt _ hpos
    set server := avail.get ⟨oracle step % avail.length, hidx⟩ with hserver
    have hget : avail.get? (oracle step % avail.length) = some server :=
      List.get?_eq_get hidx
    have hmemAvail : server ∈ avail := List.get_mem avail _ hidx
    have hmem : server ∈ PUBLIC_DNS_SERVERS := (List.mem_filter.mp hmemAvail).1
    have hnotbl : server ∉ bl := by
      have := (List.mem_filter.mp hmemAvail).2
      simpa using this
    obtain ⟨e, he⟩ := hfail server
    have hnd2 : (bl ++ [server]).Nodup := by
      simp [List.nodup_append, hnd, hnotbl]
    have hsub2 : ∀ x ∈ bl ++ [server], x ∈ PUBLIC_DNS_SERVERS := by
      intro x hx
      rcases List.mem_append.mp hx with hx | hx
      · exact hsub x hx
      · rw [List.mem_singleton.mp hx]
        exact hmem
    obtain ⟨o, ho, hlen1, hnd1, hsub1, hfb1, hres1, hrese1⟩ :=
      ih (bl ++ [server]) (step + 1) hnd2 hsub2 (by simp; omega)
    refine ⟨⟨o.result, server :: o.selections, o.finalBlacklist⟩, ?_, ?_, ?_, ?_, ?_,
      hres1, hrese1⟩
    · rw [resolveDomainGo]
      rw [← havail]
      simp only [hget, he, ho]
    · simp [hlen1]
    · rwa [List.append_assoc, List.singleton_append] at hnd1
    · intro x hx
      rcases List.mem_cons.mp hx with rfl | hx
      · exact hmem
      · exact hsub1 x hx
    · have hne : o.selections ≠ [] := by
        intro hnil
        rw [hnil] at hlen1
        simp at hlen1
      show o.finalBlacklist = bl ++ (server :: o.selections).dropLast
      rw [List.dropLast_cons_of_ne_nil hne, hfb1, List.append_assoc,
        List.singleton_append]

/-- C3 counterexample: the claim quantifies over *every* retry budget,
but with `num_retries = 7` and a domain that always fails, the first 7
attempts blacklist all 7 public resolvers and the 8th selection loop
spins forever over a fully blacklisted pool — the call never returns
`ok=false` (the embedding renders the non-terminating selection loop as
`none`). -/
theorem resolve_domain_seven_retries_no_return :
    resolveDomainGo (fun _ _ => Except.error "boom") (fun _ => 0) "x.com" 7 [] 0
      = none := by
  decide

/-- C3 (amended: additionally requires `N + 1 ≤ 7`, the size of the
public resolver pool): for a domain whose resolution always fails and a
retry budget `N`, a top-level `resolve_domain` call starting from an
empty blacklist performs exactly `N+1` resolver selections, all
distinct (the blacklist grows by exactly the failed resolver after each
non-final attempt), makes at most `N+1` resolution attempts (here:
exactly one per selection), and returns `ok=false` with a normalized
(`parse_dns_error`) error string.  For `N + 1 > 7` the selection loop
never terminates once all servers are blacklisted. -/
theorem resolve_domain_always_fail_spec
    (attempt : String → String → Except String String) (oracle : Nat → Nat)
    (domain : String) (N : Nat)
    (hfail : ∀ srv, ∃ e, attempt domain srv = Except.error e)
    (hN : N + 1 ≤ PUBLIC_DNS_SERVERS.length) :
    ∃ o, resolveDomainGo attempt oracle domain N [] 0 = some o ∧
      o.selections.length = N + 1 ∧
      o.selections.Nodup ∧
      (∀ x ∈ o.selections, x ∈ PUBLIC_DNS_SERVERS) ∧
      o.finalBlacklist = o.selections.dropLast ∧
      o.result.1 = false ∧
      (∃ e, o.result.2 = parse_dns_error e) := by
  obtain ⟨o, ho, h1, h2, h3, h4, h5, h6⟩ :=
    resolveDomainGo_always_fail attempt oracle domain hfail N [] 0
      List.nodup_nil (by simp) (by simpa using hN)
  exact ⟨o, ho, h1, by simpa using h2, h3, by simpa using h4, h5, h6⟩

/-- Witness for C3 at `N = 2` with an always-failing oracle: three
distinct selections and a failed result. -/
theorem resolve_domain_always_fail_spec_witness :
    ∃ o, resolveDomainGo (fun _ _ => Except.error "boom") (fun _ => 0) "x.com" 2
        [] 0 = some o ∧
      o.selections.length = 2 + 1 ∧
      o.selections.Nodup ∧
      (∀ x ∈ o.selections, x ∈ PUBLIC_DNS_SERVERS) ∧
      o.finalBlacklist = o.selections.dropLast ∧
      o.result.1 = false ∧
      (∃ e, o.result.2 = parse_dns_error e) :=
  resolve_domain_always_fail_spec (fun _ _ => Except.error "boom") (fun _ => 0)
    "x.com" 2 (fun srv => ⟨"boom", rfl⟩) (by decide)
